import Mathlib

/-!
# Moderation bot (`src/index.js`): shallow embedding and verified properties

The bot is an event-driven, single-threaded program: every handler runs to
completion on a module-level state (`autoPingTask`, `ghostDetectorOn`,
`recentMentions`).  The embedding makes that state explicit, adds the two
pieces of runtime state the handlers create through library calls (the pending
`setTimeout` timers and the running `node-cron` tasks), and turns every
outbound call into an entry of an effect trace.

Conventions of the model
* identifiers (snowflakes) are `String`s, compared with `=` as `===` does;
* `recentMentions` (a JS `Map`) is an association list with `get`/`set`/`delete`;
* `setTimeout(f, 120000)` registers a timer with deadline `now + 120000`; time
  advances only through `Event.elapse`, and every timer whose deadline has been
  reached fires before the next event is handled;
* `cron.schedule` creates a running task with a fresh identity, or throws when
  the expression is rejected (`Config.cronValid`); `task.stop()` removes it from
  the running tasks;
* Discord calls (`reply`, `send`, `clone`, ...) are recorded in the effect
  trace and are taken to succeed.
-/

namespace GhostBot

/-! ## Data model -/

/-- Values destructured from `process.env` (lines 5-8), with the behaviour of the
scheduling library on a schedule expression and the identifier the platform
assigns to a cloned channel. -/
structure Config where
  OWNER_ID : String
  ALLOWLIST_GUILD_ID : String
  SANDBOX_CHANNEL_ID : String
  LOG_CHANNEL_ID : String
  OPTIN_ROLE_ID : String
  cronValid : String → Bool
  cloneId : String → String

/-- The value `ChannelType.GuildText` of discord.js. -/
def ChannelType.GuildText : Nat := 0

/-- A guild channel as the handlers read it. -/
structure Channel where
  id : String
  type : Nat
  name : String
  position : Nat
deriving DecidableEq, Repr

/-- A guild with its channel cache (`guild.channels.cache`). -/
structure Guild where
  id : String
  channels : List Channel
deriving DecidableEq, Repr

/-- A user: `id` and the `bot` flag. -/
structure User where
  id : String
  bot : Bool
deriving DecidableEq, Repr

/-- The part of `msg.mentions` the handlers read: the keys of the `users` and
`roles` collections and the `everyone` flag. -/
structure Mentions where
  users : List String
  roles : List String
  everyone : Bool
deriving DecidableEq, Repr

/-- A message as delivered with `messageCreate` / `messageDelete`. -/
structure Message where
  id : String
  guild : Option Guild
  guildId : Option String
  author : User
  mentions : Mentions
deriving DecidableEq, Repr

/-- A command interaction: `options` holds the string options by name. -/
structure Interaction where
  isChatInputCommand : Bool
  user : User
  guildId : Option String
  guild : Option Guild
  commandName : String
  options : List (String × String)
deriving DecidableEq, Repr

/-- The value stored in `recentMentions` (lines 131-140). -/
structure MentionRec where
  guildId : Option String
  authorId : String
  mentions : Mentions
  ts : Nat
deriving DecidableEq, Repr

/-- A pending `setTimeout(() => recentMentions.delete(msg.id), 120000)`. -/
structure Timer where
  fireAt : Nat
  msgId : String
deriving DecidableEq, Repr

/-- A running `node-cron` task created at line 107; `chanId` is the channel the
callback captured. -/
structure Job where
  id : Nat
  expr : String
  chanId : String
deriving DecidableEq, Repr

/-- Module state (`autoPingTask`, `ghostDetectorOn`, `recentMentions`) together
with the runtime state behind it: pending timers, running cron tasks, the next
task identity and the clock. -/
structure State where
  autoPingTask : Option Nat
  ghostDetectorOn : Bool
  recentMentions : List (String × MentionRec)
  timers : List Timer
  jobs : List Job
  nextJobId : Nat
  now : Nat
deriving DecidableEq, Repr

/-- Outbound calls made by the handlers, in program order. -/
inductive Effect where
  | reply (content : String) (ephemeral : Bool)
  | followUp (content : String) (ephemeral : Bool)
  | send (channelId : String) (content : String)
  | clone (channelId : String) (reason : String)
  | setPosition (channelId : String) (position : Nat)
  | bulkDelete (channelId : String) (count : Nat)
  | cronSchedule (jobId : Nat) (expr : String)
  | cronStop (jobId : Nat)
  | error (what : String)
deriving DecidableEq, Repr

/-- State at start-up (lines 64, 65, 125). -/
def State.init : State :=
  { autoPingTask := none, ghostDetectorOn := true, recentMentions := [],
    timers := [], jobs := [], nextJobId := 0, now := 0 }

/-! ## The `recentMentions` map -/

/-- `recentMentions.get(k)`. -/
def mapGet (k : String) : List (String × MentionRec) → Option MentionRec
  | [] => none
  | (k', v) :: rest => if k' = k then some v else mapGet k rest

/-- `recentMentions.set(k, v)`: overwrite in place or append. -/
def mapSet (k : String) (v : MentionRec) :
    List (String × MentionRec) → List (String × MentionRec)
  | [] => [(k, v)]
  | (k', v') :: rest => if k' = k then (k, v) :: rest else (k', v') :: mapSet k v rest

/-- `recentMentions.delete(k)`. -/
def mapDelete (k : String) : List (String × MentionRec) → List (String × MentionRec)
  | [] => []
  | (k', v) :: rest => if k' = k then mapDelete k rest else (k', v) :: mapDelete k rest

/-- `guild.channels.cache.get(id)`. -/
def Guild.getChannel (g : Guild) (id : String) : Option Channel :=
  g.channels.find? (fun c => decide (c.id = id))

/-- `interaction.options.getString(name)`. -/
def Interaction.getString (i : Interaction) (name : String) : Option String :=
  (i.options.find? (fun p => decide (p.1 = name))).map (fun p => p.2)

/-! ## Safeties (lines 15-21) -/

/-- `ensureOwner` (line 15). -/
def ensureOwner (cfg : Config) (i : Interaction) : Bool :=
  decide (i.user.id = cfg.OWNER_ID)

/-- `ensureGuild` (line 16). -/
def ensureGuild (cfg : Config) (i : Interaction) : Bool :=
  decide (i.guildId = some cfg.ALLOWLIST_GUILD_ID)

/-- `guard`: `none` is the JS `null`. -/
def guard (cfg : Config) (i : Interaction) : Option String :=
  if !ensureGuild cfg i then some "This command works only in the allow-listed test server."
  else if !ensureOwner cfg i then some "Only the bot owner can run this command."
  else none

/-! ## Command handlers (lines 67-122) -/

/-- Body of the `nuke_safe` branch (lines 73-85). -/
def nukeSafe (cfg : Config) (s : State) (i : Interaction) : State × List Effect :=
  match i.guild with
  | none => (s, [Effect.error "TypeError: interaction.guild is null"])
  | some g =>
    match g.getChannel cfg.SANDBOX_CHANNEL_ID with
    | none => (s, [Effect.reply "Sandbox channel not found or not text." true])
    | some chan =>
      if chan.type ≠ ChannelType.GuildText then
        (s, [Effect.reply "Sandbox channel not found or not text." true])
      else
        (s, [Effect.reply ("Cloning and clearing **#" ++ chan.name ++ "**…") true,
             Effect.clone chan.id "nuke_safe",
             Effect.setPosition (cfg.cloneId chan.id) chan.position,
             Effect.bulkDelete chan.id 100,
             Effect.followUp ("Done. Clone created: <#" ++ cfg.cloneId chan.id ++
               ">. Last 100 messages cleared in sandbox.") true])

/-- Text of the `i`-th placeholder message (line 94). -/
def raidText (i : Nat) : String :=
  "[SIM] Raid message " ++ toString i ++ " — this is a harmless test message."

/-- Text of the completion marker (line 96). -/
def raidDone : String := "Simulation complete. No real users pinged."

/-- Body of the `raid_sim` branch (lines 87-97); the loop runs `i = 1, ..., 25`. -/
def raidSim (cfg : Config) (s : State) (i : Interaction) : State × List Effect :=
  match i.guild with
  | none => (s, [Effect.error "TypeError: interaction.guild is null"])
  | some g =>
    match g.getChannel cfg.LOG_CHANNEL_ID with
    | none => (s, [Effect.reply "Log channel not found." true])
    | some log =>
      if log.type ≠ ChannelType.GuildText then
        (s, [Effect.reply "Log channel not found." true])
      else
        (s, Effect.reply "Generating 25 dummy “raid” messages in log channel…" true
              :: ((List.range' 1 25).map (fun k => Effect.send log.id (raidText k))
                  ++ [Effect.send log.id raidDone]))

/-- `autoPingTask.stop()` on the task with identity `j`. -/
def stopJob (j : Nat) (jobs : List Job) : List Job :=
  jobs.filter (fun job => decide (job.id ≠ j))

/-- The expression `getString('cron') || '*/5 * * * *'` (line 101). -/
def cronExprOf (i : Interaction) : String :=
  match i.getString "cron" with
  | none => "*/5 * * * *"
  | some e => if e = "" then "*/5 * * * *" else e

/-- Body of the `auto_ping` branch (lines 99-115). -/
def autoPing (cfg : Config) (s : State) (i : Interaction) : State × List Effect :=
  let action := i.getString "action"
  let cronExpr := cronExprOf i
  match i.guild with
  | none => (s, [Effect.error "TypeError: interaction.guild is null"])
  | some g =>
    match g.getChannel cfg.SANDBOX_CHANNEL_ID with
    | none => (s, [Effect.reply "Sandbox channel not found." true])
    | some chan =>
      if action = some "start" then
        let stopped : List Job × List Effect :=
          match s.autoPingTask with
          | some j => (stopJob j s.jobs, [Effect.cronStop j])
          | none => (s.jobs, [])
        if cfg.cronValid cronExpr then
          ({ s with
              autoPingTask := some s.nextJobId,
              jobs := stopped.1 ++ [{ id := s.nextJobId, expr := cronExpr, chanId := chan.id }],
              nextJobId := s.nextJobId + 1 },
           stopped.2 ++ [Effect.cronSchedule s.nextJobId cronExpr,
             Effect.reply ("Auto-ping started with cron `" ++ cronExpr ++ "`.") true])
        else
          ({ s with jobs := stopped.1 },
           stopped.2 ++ [Effect.error "cron.schedule: invalid expression"])
      else
        match s.autoPingTask with
        | some j =>
          ({ s with autoPingTask := none, jobs := stopJob j s.jobs },
           [Effect.cronStop j, Effect.reply "Auto-ping stopped." true])
        | none => (s, [Effect.reply "Auto-ping stopped." true])

/-- Body of the `ghost_ping_detector` branch (lines 117-121). -/
def ghostPingDetector (s : State) (i : Interaction) : State × List Effect :=
  let enabled := decide (i.getString "state" = some "on")
  ({ s with ghostDetectorOn := enabled },
   [Effect.reply ("Ghost-ping detector **" ++ (if enabled then "ENABLED" else "DISABLED") ++ "**.")
      true])

/-- The `interactionCreate` listener (lines 67-122).  The four `if` blocks test
`commandName` against four different constants, so at most one of them runs. -/
def interactionCreate (cfg : Config) (s : State) (i : Interaction) : State × List Effect :=
  if !i.isChatInputCommand then (s, [])
  else
    match guard cfg i with
    | some err => (s, [Effect.reply err true])
    | none =>
      if i.commandName = "nuke_safe" then nukeSafe cfg s i
      else if i.commandName = "raid_sim" then raidSim cfg s i
      else if i.commandName = "auto_ping" then autoPing cfg s i
      else if i.commandName = "ghost_ping_detector" then ghostPingDetector s i
      else (s, [])

/-! ## Ghost-ping listeners (lines 124-155) -/

/-- Truthiness of `users.size || roles.size || everyone` (line 129). -/
def hasMentions (m : Message) : Bool :=
  decide (m.mentions.users.length ≠ 0) || decide (m.mentions.roles.length ≠ 0)
    || m.mentions.everyone

/-- The `messageCreate` listener (lines 126-144). -/
def messageCreate (s : State) (msg : Message) : State × List Effect :=
  if msg.guild.isNone || msg.author.bot then (s, [])
  else if !s.ghostDetectorOn then (s, [])
  else if hasMentions msg then
    ({ s with
        recentMentions := mapSet msg.id
          { guildId := msg.guildId, authorId := msg.author.id,
            mentions := { users := msg.mentions.users, roles := msg.mentions.roles,
                          everyone := msg.mentions.everyone },
            ts := s.now } s.recentMentions,
        timers := s.timers ++ [{ fireAt := s.now + 120000, msgId := msg.id }] }, [])
  else (s, [])

/-- Text of the suspicion report (line 153). -/
def reportText (rec : MentionRec) : String :=
  "👻 **Ghost-ping suspected** by <@" ++ rec.authorId ++ ">. Mentions: users="
    ++ toString rec.mentions.users.length ++ " roles=" ++ toString rec.mentions.roles.length
    ++ " everyone=" ++ (if rec.mentions.everyone then "yes" else "no")

/-- The `messageDelete` listener (lines 146-155). -/
def messageDelete (cfg : Config) (s : State) (msg : Message) : State × List Effect :=
  match msg.guild with
  | none => (s, [])
  | some g =>
    if !s.ghostDetectorOn then (s, [])
    else
      match mapGet msg.id s.recentMentions with
      | none => (s, [])
      | some rec =>
        match g.getChannel cfg.LOG_CHANNEL_ID with
        | none => (s, [])
        | some log => (s, [Effect.send log.id (reportText rec)])

/-! ## Timers, cron firings and the event loop -/

/-- Time advances by `ms`; the callbacks of all timers that are due run, in the
order the timers were set, and are discarded. -/
def elapse (s : State) (ms : Nat) : State :=
  let t := s.now + ms
  { s with
      now := t,
      recentMentions :=
        (s.timers.filter (fun tm => decide (tm.fireAt ≤ t))).foldl
          (fun m tm => mapDelete tm.msgId m) s.recentMentions,
      timers := s.timers.filter (fun tm => decide (¬ tm.fireAt ≤ t)) }

/-- A firing of cron task `j` (callback at line 108): only running tasks fire. -/
def cronFire (cfg : Config) (s : State) (j : Nat) : State × List Effect :=
  match s.jobs.find? (fun job => decide (job.id = j)) with
  | none => (s, [])
  | some job =>
    (s, [Effect.send job.chanId
           ("<@&" ++ cfg.OPTIN_ROLE_ID ++ "> scheduled check-in (safe auto-ping).")])

/-- Events delivered to the process. -/
inductive Event where
  | interactionCreate (i : Interaction)
  | messageCreate (m : Message)
  | messageDelete (m : Message)
  | elapse (ms : Nat)
  | cronFire (jobId : Nat)
deriving DecidableEq, Repr

/-- One turn of the event loop. -/
def step (cfg : Config) (s : State) : Event → State × List Effect
  | Event.interactionCreate i => interactionCreate cfg s i
  | Event.messageCreate m => messageCreate s m
  | Event.messageDelete m => messageDelete cfg s m
  | Event.elapse ms => (elapse s ms, [])
  | Event.cronFire j => cronFire cfg s j

/-- State after handling a sequence of events. -/
def run (cfg : Config) (s : State) : List Event → State
  | [] => s
  | e :: es => run cfg (step cfg s e).1 es

/-- Jobs created and not stopped, by identity. -/
def activeJobs (s : State) : List Nat := s.jobs.map (fun j => j.id)

/-- Messages written to channels, as (channel id, text), in order. -/
def sentMessages (es : List Effect) : List (String × String) :=
  es.filterMap (fun e => match e with
    | Effect.send c t => some (c, t)
    | _ => none)

/-- The record `messageCreate` stores for `msg` at time `now`. -/
def recordOf (msg : Message) (now : Nat) : MentionRec :=
  { guildId := msg.guildId, authorId := msg.author.id,
    mentions := { users := msg.mentions.users, roles := msg.mentions.roles,
                  everyone := msg.mentions.everyone },
    ts := now }

/-- A chat-input `auto_ping` request that passes the guard, finds the sandbox
channel, asks for `start` and carries an accepted schedule expression. -/
def startOk (cfg : Config) (i : Interaction) : Bool :=
  i.isChatInputCommand && (guard cfg i).isNone && decide (i.commandName = "auto_ping")
    && decide (i.getString "action" = some "start")
    && (match i.guild with
        | none => false
        | some g => (g.getChannel cfg.SANDBOX_CHANNEL_ID).isSome)
    && cfg.cronValid (cronExprOf i)

/-! ## Concrete configuration and inputs used in examples -/

/-- A sample configuration; the scheduling library rejects the expression `"bad"`. -/
def cfg0 : Config :=
  { OWNER_ID := "1", ALLOWLIST_GUILD_ID := "10", SANDBOX_CHANNEL_ID := "20",
    LOG_CHANNEL_ID := "30", OPTIN_ROLE_ID := "40",
    cronValid := fun e => e != "bad", cloneId := fun c => c ++ "c" }

/-- The allow-listed guild with its sandbox and log channels. -/
def guild0 : Guild :=
  { id := "10",
    channels := [{ id := "20", type := 0, name := "sandbox", position := 3 },
                 { id := "30", type := 0, name := "log", position := 4 }] }

/-- The allow-listed guild seen without its sandbox channel. -/
def guildNoSandbox : Guild :=
  { id := "10", channels := [{ id := "30", type := 0, name := "log", position := 4 }] }

/-- Another guild whose cache holds a channel with the log channel id. -/
def guildOther : Guild :=
  { id := "11", channels := [{ id := "30", type := 0, name := "log", position := 0 }] }

/-- A message by user `"5"` mentioning users `"U1"` and `"U2"`. -/
def msg0 : Message :=
  { id := "100", guild := some guild0, guildId := some "10",
    author := { id := "5", bot := false },
    mentions := { users := ["U1", "U2"], roles := [], everyone := false } }

/-- The owner invoking `name` in the allow-listed guild with the given options. -/
def ownerCmd (name : String) (opts : List (String × String)) : Interaction :=
  { isChatInputCommand := true, user := { id := "1", bot := false },
    guildId := some "10", guild := some guild0, commandName := name, options := opts }

/-! ## Predicates used in the statements -/

/-- The ledger part of the state (map, timers, clock) is the same in both states. -/
def SameLedger (s s' : State) : Prop :=
  s'.recentMentions = s.recentMentions ∧ s'.timers = s.timers ∧ s'.now = s.now

/-- `messageCreate` records the message exactly when it is in a guild, not by a
bot, detection is on and it has a mention. -/
def recorded (s : State) (msg : Message) : Bool :=
  msg.guild.isSome && !msg.author.bot && s.ghostDetectorOn && hasMentions msg

/-- No event of `evs` is a creation event carrying message id `id`. -/
def NoCreateOf (id : String) (evs : List Event) : Prop :=
  ∀ m, Event.messageCreate m ∈ evs → m.id ≠ id

/-- Every creation event of `evs` carrying message id `id` has no mention. -/
def NoMentionOf (id : String) (evs : List Event) : Prop :=
  ∀ m, Event.messageCreate m ∈ evs → m.id = id → hasMentions m = false

/-- A message by a bot account mentioning user `"U1"`. -/
def msgBot : Message :=
  { id := "101", guild := some guild0, guildId := some "10",
    author := { id := "6", bot := true },
    mentions := { users := ["U1"], roles := [], everyone := false } }

/-- A message without any mention. -/
def msgPlain : Message :=
  { id := "102", guild := some guild0, guildId := some "10",
    author := { id := "5", bot := false },
    mentions := { users := [], roles := [], everyone := false } }

/-- The deletion event of `msg0` as seen from another guild whose cache holds the
log channel id. -/
def delOther : Message :=
  { id := "100", guild := some guildOther, guildId := some "11",
    author := { id := "5", bot := false },
    mentions := { users := [], roles := [], everyone := false } }

/-- Job invariant: no task is running, or exactly one is and `autoPingTask`
refers to it. -/
def JobInv (s : State) : Prop :=
  s.jobs = [] ∨ ∃ job, s.jobs = [job] ∧ s.autoPingTask = some job.id

/-- The owner asking to start the auto-ping with schedule expression `e`. -/
def startCmd (e : String) : Interaction :=
  ownerCmd "auto_ping" [("action", "start"), ("cron", e)]

/-- The owner asking to stop the auto-ping, seen with guild `g`. -/
def stopCmd (g : Guild) : Interaction :=
  { ownerCmd "auto_ping" [("action", "stop")] with guild := some g }

/-! ## Lemmas on the `recentMentions` map -/

theorem mapGet_mapSet_self (k : String) (v : MentionRec) (m : List (String × MentionRec)) :
    mapGet k (mapSet k v m) = some v := by
  induction m with
  | nil => simp [mapSet, mapGet]
  | cons p rest ih =>
    obtain ⟨k', v'⟩ := p
    by_cases h : k' = k
    · simp [mapSet, mapGet, h]
    · simp [mapSet, mapGet, h, ih]

theorem mapGet_mapSet_ne (k k' : String) (v : MentionRec) (m : List (String × MentionRec))
    (h : k ≠ k') : mapGet k' (mapSet k v m) = mapGet k' m := by
  induction m with
  | nil => simp [mapSet, mapGet, h]
  | cons p rest ih =>
    obtain ⟨k₁, v₁⟩ := p
    by_cases h₁ : k₁ = k
    · subst h₁
      simp [mapSet, mapGet, h]
    · by_cases h₂ : k₁ = k'
      · subst h₂
        simp [mapSet, mapGet, h₁]
      · simp [mapSet, mapGet, h₁, h₂, ih]

theorem mapGet_mapDelete_self (k : String) (m : List (String × MentionRec)) :
    mapGet k (mapDelete k m) = none := by
  induction m with
  | nil => simp [mapDelete, mapGet]
  | cons p rest ih =>
    obtain ⟨k', v'⟩ := p
    by_cases h : k' = k
    · simp [mapDelete, h, ih]
    · simp [mapDelete, h, mapGet, ih]

theorem mapGet_mapDelete_ne (k k' : String) (m : List (String × MentionRec))
    (h : k ≠ k') : mapGet k' (mapDelete k m) = mapGet k' m := by
  induction m with
  | nil => simp [mapDelete, mapGet]
  | cons p rest ih =>
    obtain ⟨k₁, v₁⟩ := p
    by_cases h₁ : k₁ = k
    · subst h₁
      simp [mapDelete, mapGet, h, ih]
    · by_cases h₂ : k₁ = k'
      · subst h₂
        simp [mapDelete, mapGet, h₁]
      · simp [mapDelete, mapGet, h₁, h₂, ih]

/-- Deleting keys never makes an absent key present. -/
theorem mapGet_foldl_delete_none (k : String) (tms : List Timer)
    (m : List (String × MentionRec)) (h : mapGet k m = none) :
    mapGet k (tms.foldl (fun m tm => mapDelete tm.msgId m) m) = none := by
  induction tms generalizing m with
  | nil => simpa using h
  | cons tm rest ih =>
    simp only [List.foldl_cons]
    apply ih
    by_cases hk : tm.msgId = k
    · rw [hk]; exact mapGet_mapDelete_self k m
    · rw [mapGet_mapDelete_ne _ _ _ hk]; exact h

/-- Firing timers none of which is for `k` leaves the entry of `k` alone. -/
theorem mapGet_foldl_delete_ne (k : String) (tms : List Timer)
    (m : List (String × MentionRec)) (h : ∀ tm ∈ tms, tm.msgId ≠ k) :
    mapGet k (tms.foldl (fun m tm => mapDelete tm.msgId m) m) = mapGet k m := by
  induction tms generalizing m with
  | nil => simp
  | cons tm rest ih =>
    simp only [List.foldl_cons]
    rw [ih _ (fun t ht => h t (List.mem_cons_of_mem _ ht))]
    exact mapGet_mapDelete_ne _ _ _ (h tm (List.mem_cons_self _ _))

/-- Firing a timer for `k` removes the entry of `k`. -/
theorem mapGet_foldl_delete_mem (k : String) (tms : List Timer)
    (m : List (String × MentionRec)) (h : ∃ tm ∈ tms, tm.msgId = k) :
    mapGet k (tms.foldl (fun m tm => mapDelete tm.msgId m) m) = none := by
  induction tms generalizing m with
  | nil => simp at h
  | cons tm rest ih =>
    simp only [List.foldl_cons]
    by_cases hk : tm.msgId = k
    · apply mapGet_foldl_delete_none
      rw [hk]; exact mapGet_mapDelete_self k m
    · apply ih
      obtain ⟨t, ht, htk⟩ := h
      rcases List.mem_cons.mp ht with rfl | ht'
      · exact absurd htk hk
      · exact ⟨t, ht', htk⟩

/-! ## Frame lemmas: what each handler leaves unchanged -/

theorem messageDelete_state (cfg : Config) (s : State) (msg : Message) :
    (messageDelete cfg s msg).1 = s := by
  unfold messageDelete
  repeat (first | rfl | split)

theorem cronFire_state (cfg : Config) (s : State) (j : Nat) :
    (cronFire cfg s j).1 = s := by
  unfold cronFire
  split <;> rfl

theorem nukeSafe_state (cfg : Config) (s : State) (i : Interaction) :
    (nukeSafe cfg s i).1 = s := by
  unfold nukeSafe
  repeat (first | rfl | split)

theorem raidSim_state (cfg : Config) (s : State) (i : Interaction) :
    (raidSim cfg s i).1 = s := by
  unfold raidSim
  repeat (first | rfl | split)

theorem autoPing_frame (cfg : Config) (s : State) (i : Interaction) :
    SameLedger s (autoPing cfg s i).1 ∧ (autoPing cfg s i).1.ghostDetectorOn = s.ghostDetectorOn := by
  unfold autoPing
  dsimp only
  repeat (first | exact ⟨⟨rfl, rfl, rfl⟩, rfl⟩ | split)

theorem interactionCreate_frame (cfg : Config) (s : State) (i : Interaction) :
    SameLedger s (interactionCreate cfg s i).1 := by
  unfold interactionCreate
  split
  · exact ⟨rfl, rfl, rfl⟩
  · split
    · exact ⟨rfl, rfl, rfl⟩
    · split
      · rw [nukeSafe_state]; exact ⟨rfl, rfl, rfl⟩
      · split
        · rw [raidSim_state]; exact ⟨rfl, rfl, rfl⟩
        · split
          · exact (autoPing_frame cfg s i).1
          · split
            · exact ⟨rfl, rfl, rfl⟩
            · exact ⟨rfl, rfl, rfl⟩

theorem messageCreate_recorded (s : State) (msg : Message) (h : recorded s msg = true) :
    (messageCreate s msg).1 =
      { s with
          recentMentions := mapSet msg.id (recordOf msg s.now) s.recentMentions,
          timers := s.timers ++ [{ fireAt := s.now + 120000, msgId := msg.id }] } := by
  simp only [recorded, Bool.and_eq_true, Bool.not_eq_true', Option.isSome_iff_ne_none] at h
  obtain ⟨⟨⟨hg, hb⟩, hon⟩, hm⟩ := h
  have hg' : msg.guild.isNone = false := by
    cases hgg : msg.guild with
    | none => exact absurd hgg hg
    | some g => rfl
  simp [messageCreate, hg', hb, hon, hm, recordOf]

theorem messageCreate_not_recorded (s : State) (msg : Message) (h : recorded s msg = false) :
    (messageCreate s msg).1 = s := by
  unfold messageCreate
  split
  · rfl
  · split
    · rfl
    · split
      · rename_i h1 h2 h3
        exfalso
        cases hgg : msg.guild with
        | none => simp [hgg] at h1
        | some g =>
          simp [hgg] at h1
          simp [recorded, hgg, h1, h3] at h
          simp [h] at h2
      · rfl

/-! ## Invariants of the ledger along a run -/

theorem NoCreateOf.noMention {id : String} {evs : List Event} (h : NoCreateOf id evs) :
    NoMentionOf id evs :=
  fun m hm hid => absurd hid (h m hm)

theorem recorded_hasMentions (s : State) (m : Message) (h : recorded s m = true) :
    hasMentions m = true := by
  simp only [recorded, Bool.and_eq_true] at h
  exact h.2

/-- A property of the ledger that survives handlers which leave the ledger alone,
recordings of other message ids and the passing of time, survives every run in
which `id` is not recorded. -/
theorem run_invariant (cfg : Config) (id : String) (I : State → Prop)
    (hframe : ∀ s s', SameLedger s s' → I s → I s')
    (hcreate : ∀ s (m : Message), m.id ≠ id → I s →
      I { s with
            recentMentions := mapSet m.id (recordOf m s.now) s.recentMentions,
            timers := s.timers ++ [{ fireAt := s.now + 120000, msgId := m.id }] })
    (helapse : ∀ s ms, I s → I (elapse s ms)) :
    ∀ (evs : List Event) (s : State), NoMentionOf id evs → I s → I (run cfg s evs) := by
  intro evs
  induction evs with
  | nil => intro s _ h; exact h
  | cons e es ih =>
    intro s hno h
    have hno' : NoMentionOf id es := fun m hm => hno m (List.mem_cons_of_mem _ hm)
    simp only [run]
    apply ih _ hno'
    cases e with
    | interactionCreate i => exact hframe _ _ (interactionCreate_frame cfg s i) h
    | messageCreate m =>
      simp only [step]
      cases hr : recorded s m with
      | true =>
        have hm : m.id ≠ id := by
          intro hid
          have h1 := hno m (List.mem_cons_self _ _) hid
          rw [recorded_hasMentions s m hr] at h1
          exact Bool.noConfusion h1
        rw [messageCreate_recorded s m hr]; exact hcreate s m hm h
      | false => rw [messageCreate_not_recorded s m hr]; exact h
    | messageDelete m => simp only [step]; rw [messageDelete_state]; exact h
    | elapse ms => exact helapse s ms h
    | cronFire j => simp only [step]; rw [cronFire_state]; exact h

/-- Within the retention window the record of `id` stays in the map: while the
clock is below `T` and every timer for `id` is due at `T` or later, no timer
removes the record. -/
theorem run_keeps_record (cfg : Config) (id : String) (rec : MentionRec) (T : Nat)
    (evs : List Event) (s : State) (hno : NoCreateOf id evs)
    (hrec : mapGet id s.recentMentions = some rec)
    (htm : ∀ tm ∈ s.timers, tm.msgId = id → T ≤ tm.fireAt)
    (hT : (run cfg s evs).now < T) :
    mapGet id (run cfg s evs).recentMentions = some rec := by
  have key := run_invariant cfg id
    (fun s' => s'.now < T → mapGet id s'.recentMentions = some rec
      ∧ ∀ tm ∈ s'.timers, tm.msgId = id → T ≤ tm.fireAt)
    (by
      intro s₁ s₂ hsame h hlt
      obtain ⟨h1, h2, h3⟩ := hsame
      rw [h1, h2]
      exact h (h3 ▸ hlt))
    (by
      intro s₁ m hm h hlt
      obtain ⟨hr, ht⟩ := h hlt
      refine ⟨?_, ?_⟩
      · show mapGet id (mapSet m.id (recordOf m s₁.now) s₁.recentMentions) = some rec
        rw [mapGet_mapSet_ne _ _ _ _ hm]; exact hr
      · intro tm htm' hid
        rcases List.mem_append.mp htm' with h' | h'
        · exact ht tm h' hid
        · simp only [List.mem_singleton] at h'
          subst h'
          exact absurd hid hm)
    (by
      intro s₁ ms h hlt
      have hlt' : s₁.now + ms < T := hlt
      obtain ⟨hr, ht⟩ := h (by omega)
      refine ⟨?_, ?_⟩
      · show mapGet id ((s₁.timers.filter (fun tm => decide (tm.fireAt ≤ s₁.now + ms))).foldl
            (fun m tm => mapDelete tm.msgId m) s₁.recentMentions) = some rec
        rw [mapGet_foldl_delete_ne]
        · exact hr
        · intro tm htm' hid
          obtain ⟨hmem, hdue⟩ := List.mem_filter.mp htm'
          have hdue' : tm.fireAt ≤ s₁.now + ms := of_decide_eq_true hdue
          have := ht tm hmem hid
          omega
      · intro tm htm' hid
        exact ht tm (List.mem_filter.mp htm').1 hid)
    evs s hno.noMention (fun _ => ⟨hrec, htm⟩)
  exact (key hT).1

/-- Without a new creation event for `id`, the entry of `id` can only disappear. -/
theorem run_absent_or_same (cfg : Config) (id : String) (rec : MentionRec)
    (evs : List Event) (s : State) (hno : NoCreateOf id evs)
    (hrec : mapGet id s.recentMentions = none ∨ mapGet id s.recentMentions = some rec) :
    mapGet id (run cfg s evs).recentMentions = none
      ∨ mapGet id (run cfg s evs).recentMentions = some rec := by
  refine run_invariant cfg id
    (fun s' => mapGet id s'.recentMentions = none ∨ mapGet id s'.recentMentions = some rec)
    ?_ ?_ ?_ evs s hno.noMention hrec
  · intro s₁ s₂ hsame h
    rw [hsame.1]; exact h
  · intro s₁ m hm h
    show mapGet id (mapSet m.id (recordOf m s₁.now) s₁.recentMentions) = none ∨
      mapGet id (mapSet m.id (recordOf m s₁.now) s₁.recentMentions) = some rec
    rw [mapGet_mapSet_ne _ _ _ _ hm]; exact h
  · intro s₁ ms h
    show mapGet id ((s₁.timers.filter (fun tm => decide (tm.fireAt ≤ s₁.now + ms))).foldl
        (fun m tm => mapDelete tm.msgId m) s₁.recentMentions) = none ∨
      mapGet id ((s₁.timers.filter (fun tm => decide (tm.fireAt ≤ s₁.now + ms))).foldl
        (fun m tm => mapDelete tm.msgId m) s₁.recentMentions) = some rec
    by_cases hex : ∃ tm ∈ s₁.timers.filter (fun tm => decide (tm.fireAt ≤ s₁.now + ms)),
        tm.msgId = id
    · left; exact mapGet_foldl_delete_mem _ _ _ hex
    · rw [mapGet_foldl_delete_ne]
      · exact h
      · intro tm htm' hid
        exact hex ⟨tm, htm', hid⟩

/-- Once the clock has reached `T`, a record whose timer was due at `T` or earlier
is gone, unless the message id was recorded again. -/
theorem run_expired (cfg : Config) (id : String) (T : Nat)
    (evs : List Event) (s : State) (hno : NoMentionOf id evs)
    (h0 : mapGet id s.recentMentions = none
      ∨ ∃ tm ∈ s.timers, tm.msgId = id ∧ tm.fireAt ≤ T ∧ s.now < tm.fireAt)
    (hT : T ≤ (run cfg s evs).now) :
    mapGet id (run cfg s evs).recentMentions = none := by
  have key := run_invariant cfg id
    (fun s' => mapGet id s'.recentMentions = none
      ∨ ∃ tm ∈ s'.timers, tm.msgId = id ∧ tm.fireAt ≤ T ∧ s'.now < tm.fireAt)
    (by
      intro s₁ s₂ hsame h
      obtain ⟨h1, h2, h3⟩ := hsame
      rw [h1, h2, h3]; exact h)
    (by
      intro s₁ m hm h
      rcases h with h | ⟨tm, hmem, hid, hle, hlt⟩
      · left
        show mapGet id (mapSet m.id (recordOf m s₁.now) s₁.recentMentions) = none
        rw [mapGet_mapSet_ne _ _ _ _ hm]; exact h
      · right
        exact ⟨tm, List.mem_append_left _ hmem, hid, hle, hlt⟩)
    (by
      intro s₁ ms h
      rcases h with h | ⟨tm, hmem, hid, hle, hlt⟩
      · left; exact mapGet_foldl_delete_none _ _ _ h
      · by_cases hdue : tm.fireAt ≤ s₁.now + ms
        · left
          exact mapGet_foldl_delete_mem _ _ _
            ⟨tm, List.mem_filter.mpr ⟨hmem, decide_eq_true hdue⟩, hid⟩
        · right
          refine ⟨tm, List.mem_filter.mpr ⟨hmem, decide_eq_true hdue⟩, hid, hle, ?_⟩
          show s₁.now + ms < tm.fireAt
          omega)
    evs s hno h0
  rcases key with h | ⟨tm, _, _, hle, hlt⟩
  · exact h
  · omega

/-- A message id that is absent stays absent while it is not recorded. -/
theorem run_absent (cfg : Config) (id : String) (evs : List Event) (s : State)
    (hno : NoMentionOf id evs) (h0 : mapGet id s.recentMentions = none) :
    mapGet id (run cfg s evs).recentMentions = none :=
  run_expired cfg id (run cfg s evs).now evs s hno (Or.inl h0) (Nat.le_refl _)

/-! ## The deletion handler, case by case -/

theorem getChannel_id (g : Guild) (id : String) (c : Channel)
    (h : g.getChannel id = some c) : c.id = id := by
  unfold Guild.getChannel at h
  have := List.find?_some h
  simpa using this

theorem messageDelete_report (cfg : Config) (s : State) (msg : Message) (g : Guild)
    (rec : MentionRec) (log : Channel) (hg : msg.guild = some g)
    (hon : s.ghostDetectorOn = true) (hrec : mapGet msg.id s.recentMentions = some rec)
    (hlog : g.getChannel cfg.LOG_CHANNEL_ID = some log) :
    messageDelete cfg s msg = (s, [Effect.send cfg.LOG_CHANNEL_ID (reportText rec)]) := by
  simp [messageDelete, hg, hon, hrec, hlog, getChannel_id g _ log hlog]

theorem messageDelete_absent (cfg : Config) (s : State) (msg : Message)
    (hrec : mapGet msg.id s.recentMentions = none) :
    messageDelete cfg s msg = (s, []) := by
  unfold messageDelete
  split
  · rfl
  · split
    · rfl
    · simp [hrec]

theorem messageDelete_off (cfg : Config) (s : State) (msg : Message)
    (hoff : s.ghostDetectorOn = false) : messageDelete cfg s msg = (s, []) := by
  unfold messageDelete
  split
  · rfl
  · simp [hoff]

theorem messageDelete_cases (cfg : Config) (s : State) (msg : Message) :
    messageDelete cfg s msg = (s, [])
      ∨ ∃ g rec log, msg.guild = some g ∧ s.ghostDetectorOn = true
          ∧ mapGet msg.id s.recentMentions = some rec
          ∧ g.getChannel cfg.LOG_CHANNEL_ID = some log
          ∧ messageDelete cfg s msg
              = (s, [Effect.send cfg.LOG_CHANNEL_ID (reportText rec)]) := by
  cases hg : msg.guild with
  | none => left; simp [messageDelete, hg]
  | some g =>
    cases hon : s.ghostDetectorOn with
    | false => left; exact messageDelete_off cfg s msg hon
    | true =>
      cases hrec : mapGet msg.id s.recentMentions with
      | none => left; exact messageDelete_absent cfg s msg hrec
      | some rec =>
        cases hlog : g.getChannel cfg.LOG_CHANNEL_ID with
        | none => left; simp [messageDelete, hg, hon, hrec, hlog]
        | some log =>
          right
          exact ⟨g, rec, log, rfl, rfl, rfl, hlog,
            messageDelete_report cfg s msg g rec log hg hon hrec hlog⟩

/-- State right after a recorded creation: the record of the message is in the
map and its timer is pending. -/
theorem messageCreate_stores (s : State) (M : Message) (h : recorded s M = true) :
    mapGet M.id (messageCreate s M).1.recentMentions = some (recordOf M s.now)
      ∧ (messageCreate s M).1.timers
          = s.timers ++ [{ fireAt := s.now + 120000, msgId := M.id }]
      ∧ (messageCreate s M).1.now = s.now := by
  rw [messageCreate_recorded s M h]
  exact ⟨mapGet_mapSet_self _ _ _, rfl, rfl⟩

theorem recorded_of (s : State) (M : Message) (hguild : M.guild.isSome = true)
    (hbot : M.author.bot = false) (hon : s.ghostDetectorOn = true)
    (hment : hasMentions M = true) : recorded s M = true := by
  simp [recorded, hguild, hbot, hon, hment]

/-! ## Ghost-ping correlation: claims C1 to C6 -/

/-- C1, as stated, fails: a message with a mention written by a bot account and
deleted 5 seconds later, with detection enabled throughout and the log channel
present, produces no report, because `messageCreate` skips bot authors. -/
theorem ghost_ping_of_bot_not_reported :
    hasMentions msgBot = true
      ∧ (elapse (messageCreate State.init msgBot).1 5000).now < State.init.now + 120000
      ∧ (elapse (messageCreate State.init msgBot).1 5000).ghostDetectorOn = true
      ∧ (messageDelete cfg0 (elapse (messageCreate State.init msgBot).1 5000) msgBot).2 = [] := by
  decide

/-- C1 (amended): a message `M` with at least one mention, created in a guild by
a non-bot author while detection is enabled, whose id has no older timer
pending, and deleted less than 120 seconds later while detection is enabled,
by a deletion event whose guild holds the log channel, with no other creation
event for the same id in between: handling the deletion emits exactly one
effect, a message to the log channel whose text is the report built from the
record of `M`, and that record carries the id of the author of `M`. -/
theorem ghost_ping_reported_once (cfg : Config) (s : State) (M D : Message) (gd : Guild)
    (log : Channel) (evs : List Event)
    (hguild : M.guild.isSome = true) (hbot : M.author.bot = false)
    (hon : s.ghostDetectorOn = true) (hment : hasMentions M = true)
    (hfresh : ∀ tm ∈ s.timers, tm.msgId ≠ M.id)
    (hno : NoCreateOf M.id evs)
    (hwin : (run cfg (messageCreate s M).1 evs).now < s.now + 120000)
    (hon2 : (run cfg (messageCreate s M).1 evs).ghostDetectorOn = true)
    (hid : D.id = M.id) (hg : D.guild = some gd)
    (hlog : gd.getChannel cfg.LOG_CHANNEL_ID = some log) :
    (messageDelete cfg (run cfg (messageCreate s M).1 evs) D).2
        = [Effect.send cfg.LOG_CHANNEL_ID (reportText (recordOf M s.now))]
      ∧ (recordOf M s.now).authorId = M.author.id := by
  have hrec := recorded_of s M hguild hbot hon hment
  obtain ⟨h1, h2, _⟩ := messageCreate_stores s M hrec
  have hkeep := run_keeps_record cfg M.id (recordOf M s.now) (s.now + 120000) evs
    (messageCreate s M).1 hno h1
    (by
      intro tm htm hidt
      rw [h2] at htm
      rcases List.mem_append.mp htm with h | h
      · exact absurd hidt (hfresh tm h)
      · simp only [List.mem_singleton] at h
        subst h
        exact Nat.le_refl _)
    hwin
  rw [← hid] at hkeep
  rw [messageDelete_report cfg _ D gd _ log hg hon2 hkeep hlog]
  exact ⟨rfl, rfl⟩

/-- Instance of `ghost_ping_reported_once`: `msg0` created at start-up and deleted
5 seconds later. -/
theorem ghost_ping_reported_once_witness :
    (messageDelete cfg0 (run cfg0 (messageCreate State.init msg0).1 [Event.elapse 5000]) msg0).2
        = [Effect.send cfg0.LOG_CHANNEL_ID (reportText (recordOf msg0 State.init.now))]
      ∧ (recordOf msg0 State.init.now).authorId = msg0.author.id :=
  ghost_ping_reported_once cfg0 State.init msg0 msg0 guild0
    { id := "30", type := 0, name := "log", position := 4 } [Event.elapse 5000]
    (by decide) (by decide) (by decide) (by decide)
    (by intro tm htm; simp [State.init] at htm)
    (by intro m hm; simp at hm)
    (by decide) (by decide) rfl rfl (by decide)

/-- C2: for a message `M` handled by `messageCreate` in state `s` and followed by
events without another creation event for its id, the deletion of `M` emits
nothing when either `M` was recorded and the deletion is handled 120 seconds or
more after the creation, or `M` is not in `recentMentions` after its creation
event (never recorded). -/
theorem no_report_after_expiry_or_unrecorded (cfg : Config) (s : State) (M D : Message)
    (evs : List Event) (hno : NoCreateOf M.id evs) (hid : D.id = M.id)
    (h : (recorded s M = true
            ∧ s.now + 120000 ≤ (run cfg (messageCreate s M).1 evs).now)
          ∨ mapGet M.id (messageCreate s M).1.recentMentions = none) :
    (messageDelete cfg (run cfg (messageCreate s M).1 evs) D).2 = [] := by
  have habs : mapGet D.id (run cfg (messageCreate s M).1 evs).recentMentions = none := by
    rw [hid]
    rcases h with ⟨hrec, hT⟩ | hnone
    · obtain ⟨_, h2, h3⟩ := messageCreate_stores s M hrec
      refine run_expired cfg M.id (s.now + 120000) evs _ hno.noMention (Or.inr ?_) hT
      refine ⟨{ fireAt := s.now + 120000, msgId := M.id }, ?_, rfl, Nat.le_refl _, ?_⟩
      · rw [h2]; simp
      · rw [h3]; show s.now < s.now + 120000; omega
    · exact run_absent cfg M.id evs _ hno.noMention hnone
  rw [messageDelete_absent cfg _ D habs]

/-- Instances of `no_report_after_expiry_or_unrecorded`: `msg0` deleted exactly
120 seconds after its creation, and `msgPlain` (no mention) deleted at once. -/
theorem no_report_after_expiry_or_unrecorded_witness :
    (messageDelete cfg0 (run cfg0 (messageCreate State.init msg0).1 [Event.elapse 120000])
        msg0).2 = []
      ∧ (messageDelete cfg0 (run cfg0 (messageCreate State.init msgPlain).1 []) msgPlain).2
          = [] :=
  ⟨no_report_after_expiry_or_unrecorded cfg0 State.init msg0 msg0 [Event.elapse 120000]
      (by intro m hm; simp at hm) rfl (Or.inl (by decide)),
   no_report_after_expiry_or_unrecorded cfg0 State.init msgPlain msgPlain []
      (by intro m hm; simp at hm) rfl (Or.inr (by decide))⟩

/-- C3, as stated, fails: after `msg0` has been created, its deletion is
reported, the record is still in `recentMentions` afterwards, and a second
deletion event for the same id is reported again. -/
theorem deletion_does_not_consume :
    (messageDelete cfg0 (messageCreate State.init msg0).1 msg0).2
        = [Effect.send "30"
            "👻 **Ghost-ping suspected** by <@5>. Mentions: users=2 roles=0 everyone=no"]
      ∧ mapGet "100"
          (messageDelete cfg0 (messageCreate State.init msg0).1 msg0).1.recentMentions
          = some (recordOf msg0 0)
      ∧ (messageDelete cfg0
            (messageDelete cfg0 (messageCreate State.init msg0).1 msg0).1 msg0).2
          = [Effect.send "30"
              "👻 **Ghost-ping suspected** by <@5>. Mentions: users=2 roles=0 everyone=no"] := by
  decide

/-- C3 (amended): the deletion handler only reads the ledger: handling a deletion
event leaves the whole state, `recentMentions` included, unchanged, so an id
present before is present after with the same record, and a second deletion
event for the same message handled next emits the same effects again. -/
theorem deletion_leaves_ledger (cfg : Config) (s : State) (D : Message) :
    (messageDelete cfg s D).1 = s
      ∧ mapGet D.id (messageDelete cfg s D).1.recentMentions = mapGet D.id s.recentMentions
      ∧ (messageDelete cfg (messageDelete cfg s D).1 D).2 = (messageDelete cfg s D).2 := by
  rw [messageDelete_state]
  exact ⟨rfl, rfl, rfl⟩

/-- C4, as stated, fails: the record of `msg0` carries guild id `"10"`; a deletion
event for the same message id arriving with guild `"11"`, whose cache holds the
log channel id, is reported. -/
theorem deletion_in_other_guild_reported :
    mapGet delOther.id (messageCreate State.init msg0).1.recentMentions
        = some (recordOf msg0 0)
      ∧ (recordOf msg0 0).guildId = some "10"
      ∧ delOther.guild = some guildOther ∧ guildOther.id = "11"
      ∧ delOther.guildId = some "11"
      ∧ (messageDelete cfg0 (messageCreate State.init msg0).1 delOther).2
          = [Effect.send "30"
              "👻 **Ghost-ping suspected** by <@5>. Mentions: users=2 roles=0 everyone=no"] := by
  decide

/-- C4 (amended): the deletion handler emits a report exactly when detection is
on, the message id is in `recentMentions` and the guild of the deletion event
holds the log channel in its cache; the `guildId` stored in the record is not
compared with anything, and nothing but that one report is ever emitted. -/
theorem deletion_report_iff (cfg : Config) (s : State) (D : Message) :
    ((messageDelete cfg s D).2 ≠ [] ↔
        (s.ghostDetectorOn = true ∧ ∃ g rec log, D.guild = some g
          ∧ mapGet D.id s.recentMentions = some rec
          ∧ g.getChannel cfg.LOG_CHANNEL_ID = some log))
      ∧ (∀ rec, mapGet D.id s.recentMentions = some rec →
          (messageDelete cfg s D).2 = []
            ∨ (messageDelete cfg s D).2
                = [Effect.send cfg.LOG_CHANNEL_ID (reportText rec)]) := by
  constructor
  · constructor
    · intro hne
      rcases messageDelete_cases cfg s D with h | ⟨g, rec, log, hg, hon, hrec, hlog, _⟩
      · rw [h] at hne; exact absurd rfl hne
      · exact ⟨hon, g, rec, log, hg, hrec, hlog⟩
    · rintro ⟨hon, g, rec, log, hg, hrec, hlog⟩
      rw [messageDelete_report cfg s D g rec log hg hon hrec hlog]
      simp
  · intro rec hrec
    rcases messageDelete_cases cfg s D with h | ⟨g, rec', log, _, _, hrec', _, h⟩
    · left; rw [h]
    · right
      rw [hrec] at hrec'
      cases hrec'
      rw [h]

/-- Instance of `deletion_report_iff`: the deletion event `delOther`, arriving
with another guild than the one recorded for `msg0`, emits a report. -/
theorem deletion_report_iff_witness :
    (messageDelete cfg0 (messageCreate State.init msg0).1 delOther).2 ≠ [] :=
  (deletion_report_iff cfg0 (messageCreate State.init msg0).1 delOther).1.mpr
    ⟨by decide, guildOther, recordOf msg0 0,
      { id := "30", type := 0, name := "log", position := 0 }, rfl, by decide, by decide⟩

/-- C5: while `ghostDetectorOn` is false a deletion event emits nothing and
leaves the state as it was, whatever `recentMentions` holds, so nothing about
that deletion is kept for later; and the `ghost_ping_detector` command sends no
message to any channel (its only effect, if any, is a private reply) and does
not touch `recentMentions`. -/
theorem detector_off_suppresses (cfg : Config) (s : State) :
    (∀ D : Message, s.ghostDetectorOn = false → messageDelete cfg s D = (s, []))
      ∧ (∀ i : Interaction, i.commandName = "ghost_ping_detector" →
          sentMessages (interactionCreate cfg s i).2 = []
            ∧ (∀ e ∈ (interactionCreate cfg s i).2, ∃ c, e = Effect.reply c true)
            ∧ (interactionCreate cfg s i).1.recentMentions = s.recentMentions) := by
  refine ⟨fun D hoff => messageDelete_off cfg s D hoff, ?_⟩
  intro i hcmd
  refine ⟨?_, ?_, (interactionCreate_frame cfg s i).1⟩
  · unfold interactionCreate
    split
    · rfl
    · split
      · rfl
      · simp [hcmd, ghostPingDetector, sentMessages]
  · unfold interactionCreate
    split
    · simp
    · split
      · simp
      · simp [hcmd, ghostPingDetector]

/-- Instance of `detector_off_suppresses`: with the detector off the deletion of
the recorded `msg0` emits nothing, and switching the detector back on only
replies to the owner. -/
theorem detector_off_suppresses_witness :
    messageDelete cfg0 { (messageCreate State.init msg0).1 with ghostDetectorOn := false } msg0
        = ({ (messageCreate State.init msg0).1 with ghostDetectorOn := false }, [])
      ∧ sentMessages (interactionCreate cfg0
          { (messageCreate State.init msg0).1 with ghostDetectorOn := false }
          (ownerCmd "ghost_ping_detector" [("state", "on")])).2 = [] :=
  ⟨(detector_off_suppresses cfg0
      { (messageCreate State.init msg0).1 with ghostDetectorOn := false }).1 msg0 rfl,
   ((detector_off_suppresses cfg0
      { (messageCreate State.init msg0).1 with ghostDetectorOn := false }).2
      (ownerCmd "ghost_ping_detector" [("state", "on")]) rfl).1⟩

/-- C6: the deletion of a message `M` that was recorded at its creation (and
whose id is not created again before the deletion) emits either nothing or one
message to the log channel that names the author id of `M`, gives `users=` and
`roles=` the numbers of distinct user and role ids mentioned by `M`, and
`everyone=yes` when `M` mentioned everyone, `everyone=no` otherwise; when `M`
mentioned two users, no role and not everyone the report reads
`users=2 roles=0 everyone=no`. -/
theorem report_text_content (cfg : Config) (s : State) (M D : Message) (evs : List Event)
    (hrec : recorded s M = true) (hno : NoCreateOf M.id evs) (hid : D.id = M.id)
    (hu : M.mentions.users.Nodup) (hr : M.mentions.roles.Nodup) :
    ((messageDelete cfg (run cfg (messageCreate s M).1 evs) D).2 = []
        ∨ (messageDelete cfg (run cfg (messageCreate s M).1 evs) D).2
          = [Effect.send cfg.LOG_CHANNEL_ID
              ("👻 **Ghost-ping suspected** by <@" ++ M.author.id ++ ">. Mentions: users="
                ++ toString M.mentions.users.toFinset.card ++ " roles="
                ++ toString M.mentions.roles.toFinset.card
                ++ " everyone=" ++ (if M.mentions.everyone = true then "yes" else "no"))])
      ∧ (∀ U1 U2 : String,
          M.mentions = { users := [U1, U2], roles := [], everyone := false } →
          (messageDelete cfg (run cfg (messageCreate s M).1 evs) D).2 = []
            ∨ (messageDelete cfg (run cfg (messageCreate s M).1 evs) D).2
              = [Effect.send cfg.LOG_CHANNEL_ID
                  ("👻 **Ghost-ping suspected** by <@" ++ M.author.id
                    ++ ">. Mentions: users=2 roles=0 everyone=no")]) := by
  have hst := (messageCreate_stores s M hrec).1
  have hR := run_absent_or_same cfg M.id (recordOf M s.now) evs (messageCreate s M).1 hno
    (Or.inr hst)
  rw [← hid] at hR
  have hout : (messageDelete cfg (run cfg (messageCreate s M).1 evs) D).2 = []
      ∨ (messageDelete cfg (run cfg (messageCreate s M).1 evs) D).2
        = [Effect.send cfg.LOG_CHANNEL_ID (reportText (recordOf M s.now))] := by
    rcases messageDelete_cases cfg (run cfg (messageCreate s M).1 evs) D with h
      | ⟨g, rec, log, _, _, hrec', _, h⟩
    · left; rw [h]
    · rcases hR with hR | hR
      · rw [hR] at hrec'; cases hrec'
      · rw [hR] at hrec'; cases hrec'
        right; rw [h]
  constructor
  · rcases hout with h | h
    · exact Or.inl h
    · right
      rw [h, List.toFinset_card_of_nodup hu, List.toFinset_card_of_nodup hr]
      rfl
  · intro U1 U2 hm
    rcases hout with h | h
    · exact Or.inl h
    · right
      rw [h]
      simp only [reportText, recordOf, hm, String.append_assoc]
      refine congrArg (fun t => [Effect.send cfg.LOG_CHANNEL_ID t]) (congrArg _ (congrArg _ ?_))
      simp only [List.length_cons, List.length_nil]
      decide

/-- Instance of `report_text_content`: `msg0` by user `"5"` mentions `"U1"` and
`"U2"` and is deleted 5 seconds later. -/
theorem report_text_content_witness :
    (messageDelete cfg0 (run cfg0 (messageCreate State.init msg0).1 [Event.elapse 5000])
        msg0).2
      = [Effect.send cfg0.LOG_CHANNEL_ID
          ("👻 **Ghost-ping suspected** by <@" ++ msg0.author.id
            ++ ">. Mentions: users=2 roles=0 everyone=no")] :=
  ((report_text_content cfg0 State.init msg0 msg0 [Event.elapse 5000] (by decide)
    (by intro m hm; simp at hm) rfl (by decide) (by decide)).2 "U1" "U2" rfl).resolve_left
    (by decide)

/-- C7: `guard` returns `null` exactly when the interaction comes from the
allow-listed guild and from the owner; a chat-input command that fails either
check gets exactly one private reply, carrying the message `guard` returned,
and nothing else happens: the state is unchanged and there is no other effect. -/
theorem guard_rejects (cfg : Config) (s : State) (i : Interaction) :
    (guard cfg i = none ↔
        (i.guildId = some cfg.ALLOWLIST_GUILD_ID ∧ i.user.id = cfg.OWNER_ID))
      ∧ (i.isChatInputCommand = true →
          ¬ (i.guildId = some cfg.ALLOWLIST_GUILD_ID ∧ i.user.id = cfg.OWNER_ID) →
          ∃ err, guard cfg i = some err
            ∧ interactionCreate cfg s i = (s, [Effect.reply err true])) := by
  have hiff : guard cfg i = none ↔
      (i.guildId = some cfg.ALLOWLIST_GUILD_ID ∧ i.user.id = cfg.OWNER_ID) := by
    unfold guard ensureGuild ensureOwner
    by_cases hg : i.guildId = some cfg.ALLOWLIST_GUILD_ID
    · by_cases ho : i.user.id = cfg.OWNER_ID
      · simp [hg, ho]
      · simp [hg, ho]
    · simp [hg]
  refine ⟨hiff, ?_⟩
  intro hchat hfail
  cases hgd : guard cfg i with
  | none => exact absurd (hiff.mp hgd) hfail
  | some err =>
    refine ⟨err, rfl, ?_⟩
    simp [interactionCreate, hchat, hgd]

/-- Instance of `guard_rejects`: user `"2"` invoking `nuke_safe` in the
allow-listed guild is rejected with the owner-only message. -/
theorem guard_rejects_witness :
    ∃ err, guard cfg0 { ownerCmd "nuke_safe" [] with user := { id := "2", bot := false } }
        = some err
      ∧ interactionCreate cfg0 State.init
          { ownerCmd "nuke_safe" [] with user := { id := "2", bot := false } }
        = (State.init, [Effect.reply err true]) :=
  (guard_rejects cfg0 State.init
    { ownerCmd "nuke_safe" [] with user := { id := "2", bot := false } }).2
    rfl (by decide)

/-! ## Scheduled broadcaster: claims C8 and C9 -/

theorem messageCreate_jobs (s : State) (m : Message) :
    (messageCreate s m).1.jobs = s.jobs
      ∧ (messageCreate s m).1.autoPingTask = s.autoPingTask := by
  unfold messageCreate
  repeat (first | exact ⟨rfl, rfl⟩ | split)

/-- Jobs left running by the `stop()` call of a start request, in a state that
satisfies the job invariant: none. -/
theorem stopped_nil (s : State) (h : JobInv s) :
    (match s.autoPingTask with
      | some j => (stopJob j s.jobs, [Effect.cronStop j])
      | none => (s.jobs, ([] : List Effect))).1 = [] := by
  rcases h with h | ⟨job, hj, ha⟩
  · cases s.autoPingTask <;> simp [h, stopJob]
  · simp [ha, hj, stopJob]

theorem autoPing_inv (cfg : Config) (s : State) (i : Interaction) (h : JobInv s) :
    JobInv (autoPing cfg s i).1 := by
  have hstop := stopped_nil s h
  unfold autoPing
  dsimp only
  split
  · exact h
  · split
    · exact h
    · split
      · split
        · right
          rename_i chan _ _ _
          refine ⟨{ id := s.nextJobId, expr := cronExprOf i, chanId := chan.id }, ?_, rfl⟩
          simp only [hstop, List.nil_append]
        · left
          exact hstop
      · split
        · rename_i j hj
          left
          rcases h with h | ⟨job, hjob, ha⟩
          · simp [h, stopJob]
          · rw [hj] at ha
            cases ha
            simp [hjob, stopJob]
        · exact h

theorem step_inv (cfg : Config) (s : State) (e : Event) (h : JobInv s) :
    JobInv (step cfg s e).1 := by
  cases e with
  | interactionCreate i =>
    simp only [step]
    unfold interactionCreate
    split
    · exact h
    · split
      · exact h
      · split
        · rw [nukeSafe_state]; exact h
        · split
          · rw [raidSim_state]; exact h
          · split
            · exact autoPing_inv cfg s i h
            · split
              · exact h
              · exact h
  | messageCreate m =>
    simp only [step]
    obtain ⟨h1, h2⟩ := messageCreate_jobs s m
    unfold JobInv
    rw [h1, h2]
    exact h
  | messageDelete m => simp only [step]; rw [messageDelete_state]; exact h
  | elapse ms => exact h
  | cronFire j => simp only [step]; rw [cronFire_state]; exact h

theorem run_inv (cfg : Config) (evs : List Event) (s : State) (h : JobInv s) :
    JobInv (run cfg s evs) := by
  induction evs generalizing s with
  | nil => exact h
  | cons e es ih => exact ih _ (step_inv cfg s e h)

theorem init_inv : JobInv State.init := Or.inl rfl

/-- Effect of a successful start request on a state satisfying the job
invariant: the task `autoPingTask` referred to is stopped and one new task,
with the next identity, is the only one running. -/
theorem start_ok_result (cfg : Config) (s : State) (i : Interaction) (h : JobInv s)
    (hok : startOk cfg i = true) :
    activeJobs (interactionCreate cfg s i).1 = [s.nextJobId]
      ∧ (interactionCreate cfg s i).1.autoPingTask = some s.nextJobId
      ∧ (interactionCreate cfg s i).1.nextJobId = s.nextJobId + 1
      ∧ (∀ j, s.autoPingTask = some j → Effect.cronStop j ∈ (interactionCreate cfg s i).2) := by
  have hstop := stopped_nil s h
  simp only [startOk, Bool.and_eq_true, decide_eq_true_eq, Option.isNone_iff_eq_none] at hok
  obtain ⟨⟨⟨⟨⟨hchat, hguard⟩, hcmd⟩, hact⟩, hg⟩, hcron⟩ := hok
  cases hgi : i.guild with
  | none => simp [hgi] at hg
  | some g =>
    simp only [hgi, Option.isSome_iff_exists] at hg
    obtain ⟨chan, hchan⟩ := hg
    have hres : interactionCreate cfg s i = autoPing cfg s i := by
      simp [interactionCreate, hchat, hguard, hcmd]
    rw [hres]
    unfold autoPing
    simp only [hgi, hchan, hact, hcron, if_true]
    refine ⟨?_, trivial, trivial, ?_⟩
    · simp only [activeJobs, hstop, List.nil_append, List.map_cons, List.map_nil]
    · intro j hj
      simp [hj]

/-- C8: in every state reached from start-up by any sequence of events, at most
one job is active and an active job is the one `autoPingTask` refers to; after
two successive successful start requests handled in such a state, exactly one
job is active, it is the job created by the second request and `autoPingTask`
refers to it, and the job created by the first request has been stopped by the
second. -/
theorem at_most_one_job (cfg : Config) (evs : List Event) :
    (activeJobs (run cfg State.init evs)).length ≤ 1
      ∧ (∀ j ∈ activeJobs (run cfg State.init evs),
          (run cfg State.init evs).autoPingTask = some j)
      ∧ (∀ i1 i2 : Interaction, startOk cfg i1 = true → startOk cfg i2 = true →
          activeJobs (interactionCreate cfg (run cfg State.init evs) i1).1
              = [(run cfg State.init evs).nextJobId]
            ∧ activeJobs (interactionCreate cfg
                (interactionCreate cfg (run cfg State.init evs) i1).1 i2).1
              = [(run cfg State.init evs).nextJobId + 1]
            ∧ (interactionCreate cfg
                (interactionCreate cfg (run cfg State.init evs) i1).1 i2).1.autoPingTask
              = some ((run cfg State.init evs).nextJobId + 1)
            ∧ Effect.cronStop (run cfg State.init evs).nextJobId
                ∈ (interactionCreate cfg
                    (interactionCreate cfg (run cfg State.init evs) i1).1 i2).2) := by
  have hinv := run_inv cfg evs State.init init_inv
  refine ⟨?_, ?_, ?_⟩
  · rcases hinv with h | ⟨job, hj, _⟩
    · simp [activeJobs, h]
    · simp [activeJobs, hj]
  · intro j hj
    rcases hinv with h | ⟨job, hjob, ha⟩
    · simp [activeJobs, h] at hj
    · simp only [activeJobs, hjob, List.map_cons, List.map_nil, List.mem_singleton] at hj
      rw [hj]; exact ha
  · intro i1 i2 h1 h2
    obtain ⟨a1, a2, a3, _⟩ := start_ok_result cfg _ i1 hinv h1
    have hinv1 : JobInv (interactionCreate cfg (run cfg State.init evs) i1).1 :=
      step_inv cfg _ (Event.interactionCreate i1) hinv
    obtain ⟨b1, b2, _, b4⟩ := start_ok_result cfg _ i2 hinv1 h2
    rw [a3] at b1 b2
    exact ⟨a1, b1, b2, b4 _ a2⟩

/-- Instance of `at_most_one_job`: the owner starts the auto-ping twice at
start-up; job 1 is the only active job and job 0 has been stopped. -/
theorem at_most_one_job_witness :
    activeJobs (interactionCreate cfg0
        (interactionCreate cfg0 (run cfg0 State.init []) (startCmd "* * * * *")).1
        (startCmd "*/2 * * * *")).1 = [(run cfg0 State.init []).nextJobId + 1]
      ∧ Effect.cronStop (run cfg0 State.init []).nextJobId
          ∈ (interactionCreate cfg0
              (interactionCreate cfg0 (run cfg0 State.init []) (startCmd "* * * * *")).1
              (startCmd "*/2 * * * *")).2 :=
  ⟨((at_most_one_job cfg0 []).2.2 (startCmd "* * * * *") (startCmd "*/2 * * * *")
      (by decide) (by decide)).2.1,
   ((at_most_one_job cfg0 []).2.2 (startCmd "* * * * *") (startCmd "*/2 * * * *")
      (by decide) (by decide)).2.2.2⟩

/-- C9, as stated, fails: with a job running, a stop request by the owner in the
allow-listed guild whose channel cache does not hold the sandbox channel only
replies that the channel was not found; the job stays active and `autoPingTask`
still refers to it. -/
theorem stop_without_sandbox_keeps_job :
    guard cfg0 (stopCmd guildNoSandbox) = none
      ∧ (stopCmd guildNoSandbox).getString "action" = some "stop"
      ∧ activeJobs (interactionCreate cfg0 State.init (startCmd "* * * * *")).1 = [0]
      ∧ interactionCreate cfg0 (interactionCreate cfg0 State.init (startCmd "* * * * *")).1
          (stopCmd guildNoSandbox)
        = ((interactionCreate cfg0 State.init (startCmd "* * * * *")).1,
           [Effect.reply "Sandbox channel not found." true])
      ∧ (interactionCreate cfg0 (interactionCreate cfg0 State.init (startCmd "* * * * *")).1
          (stopCmd guildNoSandbox)).1.autoPingTask = some 0 := by
  decide

/-- C9 (amended): an `auto_ping` request with action `stop` that passes the guard
and finds the sandbox channel in the guild cache leaves the broadcaster idle:
`autoPingTask` is null afterwards, the job it referred to has been stopped and
is no longer active, and no error is raised; when `autoPingTask` was already
null the request changes no state and only replies; in a state reached from
start-up no job at all is active afterwards. -/
theorem stop_leaves_idle (cfg : Config) (s : State) (i : Interaction) (g : Guild)
    (chan : Channel) (hchat : i.isChatInputCommand = true) (hguard : guard cfg i = none)
    (hcmd : i.commandName = "auto_ping") (hact : i.getString "action" = some "stop")
    (hg : i.guild = some g) (hchan : g.getChannel cfg.SANDBOX_CHANNEL_ID = some chan) :
    (interactionCreate cfg s i).1.autoPingTask = none
      ∧ (∀ j, s.autoPingTask = some j →
          j ∉ activeJobs (interactionCreate cfg s i).1
            ∧ (interactionCreate cfg s i).2
                = [Effect.cronStop j, Effect.reply "Auto-ping stopped." true])
      ∧ (s.autoPingTask = none →
          interactionCreate cfg s i = (s, [Effect.reply "Auto-ping stopped." true]))
      ∧ (∀ e ∈ (interactionCreate cfg s i).2, ∀ w, e ≠ Effect.error w)
      ∧ (∀ evs, s = run cfg State.init evs → activeJobs (interactionCreate cfg s i).1 = []) := by
  have hres : interactionCreate cfg s i = autoPing cfg s i := by
    simp [interactionCreate, hchat, hguard, hcmd]
  have hne : ¬ (some "stop" : Option String) = some "start" := by decide
  rw [hres]
  unfold autoPing
  simp only [hg, hchan, hact, hne, if_false]
  cases ha : s.autoPingTask with
  | none =>
    refine ⟨ha, ?_, fun _ => rfl, ?_, ?_⟩
    · intro j hj; cases hj
    · intro e he w; simp at he; rw [he]; simp
    · intro evs hs
      have hinv := run_inv cfg evs State.init init_inv
      rw [← hs] at hinv
      rcases hinv with h | ⟨job, _, hj⟩
      · simp [activeJobs, h]
      · rw [ha] at hj; cases hj
  | some j =>
    refine ⟨rfl, ?_, ?_, ?_, ?_⟩
    · intro j' hj'
      cases hj'
      refine ⟨?_, rfl⟩
      simp [activeJobs, stopJob]
    · intro h; cases h
    · intro e he w
      simp at he
      rcases he with he | he <;> (rw [he]; simp)
    · intro evs hs
      have hinv := run_inv cfg evs State.init init_inv
      rw [← hs] at hinv
      rcases hinv with h | ⟨job, hjob, hj⟩
      · simp [activeJobs, h, stopJob]
      · rw [ha] at hj; cases hj
        simp [activeJobs, hjob, stopJob]

/-- Instance of `stop_leaves_idle`: the owner stops the auto-ping started just
before; no job is active afterwards. -/
theorem stop_leaves_idle_witness :
    (interactionCreate cfg0 (interactionCreate cfg0 State.init (startCmd "* * * * *")).1
        (stopCmd guild0)).1.autoPingTask = none
      ∧ activeJobs (interactionCreate cfg0
          (interactionCreate cfg0 State.init (startCmd "* * * * *")).1 (stopCmd guild0)).1 = [] :=
  ⟨(stop_leaves_idle cfg0 (interactionCreate cfg0 State.init (startCmd "* * * * *")).1
      (stopCmd guild0) guild0 { id := "20", type := 0, name := "sandbox", position := 3 }
      rfl (by decide) rfl (by decide) rfl (by decide)).1,
   (stop_leaves_idle cfg0 (interactionCreate cfg0 State.init (startCmd "* * * * *")).1
      (stopCmd guild0) guild0 { id := "20", type := 0, name := "sandbox", position := 3 }
      rfl (by decide) rfl (by decide) rfl (by decide)).2.2.2.2
      [Event.interactionCreate (startCmd "* * * * *")] rfl⟩

/-! ## Raid simulation: claim C10 -/

theorem sentMessages_sends (c : String) (f : Nat → String) (l : List Nat) (rest : List Effect) :
    sentMessages (l.map (fun k => Effect.send c (f k)) ++ rest)
      = l.map (fun k => (c, f k)) ++ sentMessages rest := by
  induction l with
  | nil => simp
  | cons k ks ih =>
    simp only [sentMessages] at ih
    simp [sentMessages, ih]

/-- Messages written by a `raid_sim` invocation that reaches the loop. -/
theorem raidSim_sent (cfg : Config) (s : State) (i : Interaction) (g : Guild) (log : Channel)
    (hchat : i.isChatInputCommand = true) (hguard : guard cfg i = none)
    (hcmd : i.commandName = "raid_sim") (hg : i.guild = some g)
    (hlog : g.getChannel cfg.LOG_CHANNEL_ID = some log)
    (htext : log.type = ChannelType.GuildText) :
    (interactionCreate cfg s i).1 = s
      ∧ sentMessages (interactionCreate cfg s i).2
        = (List.range' 1 25).map (fun k => (cfg.LOG_CHANNEL_ID, raidText k))
            ++ [(cfg.LOG_CHANNEL_ID, raidDone)] := by
  have hid := getChannel_id g _ log hlog
  have hne : ¬ i.commandName = "nuke_safe" := by rw [hcmd]; decide
  have hres : interactionCreate cfg s i = raidSim cfg s i := by
    simp [interactionCreate, hchat, hguard, hcmd]
  rw [hres]
  refine ⟨raidSim_state cfg s i, ?_⟩
  unfold raidSim
  simp only [hg, hlog, htext, hid, ne_eq, not_true_eq_false, if_false]
  have h := sentMessages_sends cfg.LOG_CHANNEL_ID raidText (List.range' 1 25)
    [Effect.send cfg.LOG_CHANNEL_ID raidDone]
  simpa [sentMessages] using h

/-- C10: a `raid_sim` invocation that passes the guard and finds a text log
channel writes exactly 26 messages, all of them to the log channel: the `k`-th,
for `k = 1, ..., 25`, is the placeholder message numbered `k`, and the 26th is
the completion marker; the state is unchanged. -/
theorem raid_sim_sends_26 (cfg : Config) (s : State) (i : Interaction) (g : Guild)
    (log : Channel) (hchat : i.isChatInputCommand = true) (hguard : guard cfg i = none)
    (hcmd : i.commandName = "raid_sim") (hg : i.guild = some g)
    (hlog : g.getChannel cfg.LOG_CHANNEL_ID = some log)
    (htext : log.type = ChannelType.GuildText) :
    (sentMessages (interactionCreate cfg s i).2).length = 26
      ∧ (∀ k, k < 25 → (sentMessages (interactionCreate cfg s i).2)[k]?
          = some (cfg.LOG_CHANNEL_ID,
              "[SIM] Raid message " ++ toString (k + 1)
                ++ " — this is a harmless test message."))
      ∧ (sentMessages (interactionCreate cfg s i).2)[25]?
          = some (cfg.LOG_CHANNEL_ID, "Simulation complete. No real users pinged.")
      ∧ (∀ p ∈ sentMessages (interactionCreate cfg s i).2, p.1 = cfg.LOG_CHANNEL_ID)
      ∧ (interactionCreate cfg s i).1 = s := by
  obtain ⟨hs, hsent⟩ := raidSim_sent cfg s i g log hchat hguard hcmd hg hlog htext
  rw [hsent]
  refine ⟨by simp, ?_, by simp [raidDone], ?_, hs⟩
  · intro k hk
    rw [List.getElem?_append_left (by simpa using hk)]
    simp [List.getElem?_range', hk, raidText, Nat.add_comm]
  · intro p hp
    simp only [List.mem_append, List.mem_map, List.mem_singleton] at hp
    rcases hp with ⟨k, _, rfl⟩ | rfl <;> rfl

/-- Instance of `raid_sim_sends_26`: the owner invokes `raid_sim` at start-up. -/
theorem raid_sim_sends_26_witness :
    (sentMessages (interactionCreate cfg0 State.init (ownerCmd "raid_sim" [])).2).length = 26
      ∧ (sentMessages (interactionCreate cfg0 State.init (ownerCmd "raid_sim" [])).2)[25]?
          = some (cfg0.LOG_CHANNEL_ID, "Simulation complete. No real users pinged.") :=
  ⟨(raid_sim_sends_26 cfg0 State.init (ownerCmd "raid_sim" []) guild0
      { id := "30", type := 0, name := "log", position := 4 }
      rfl (by decide) rfl rfl (by decide) rfl).1,
   (raid_sim_sends_26 cfg0 State.init (ownerCmd "raid_sim" []) guild0
      { id := "30", type := 0, name := "log", position := 4 }
      rfl (by decide) rfl rfl (by decide) rfl).2.2.1⟩

end GhostBot
